import Mathlib

/-!
Verification of the temporary-workspace housekeeping subsystem of the
Photon repository (src/src-tauri/src/main.rs): the size accumulator
`compute_dir_size`, the retention sweep `cleanup_temporary_files`, the
disk probe `available_disk_space`, and the orchestrator `housekeeping`.

The Rust code is shallowly embedded: u64 arithmetic becomes Nat with an
explicit saturation bound `U64MAX`, `SystemTime` becomes seconds since
the epoch as a Nat, filesystem contents become inductive trees, and the
IO outcomes of each filesystem call (reading an entry, reading metadata,
removing an entry, measuring a subtree) become explicit Boolean fields
of the modelled state.
-/

namespace Photon

/-! ### Size accumulator (`compute_dir_size`) -/

/-- Largest value of Rust's u64: saturating arithmetic clamps here. -/
def U64MAX : Nat := 18446744073709551615

/-- Rust `u64::saturating_add` on in-range naturals. -/
def satAdd (a b : Nat) : Nat := min (a + b) U64MAX

/-- A filesystem subtree: a regular file with its byte size, or a
directory with its list of children (in `read_dir` order). -/
inductive FsTree where
  | file (size : Nat)
  | dir (children : List FsTree)

mutual

/-- Reference total size: the sum of the sizes of all regular files in
the tree, with no saturation. -/
def totalSize : FsTree → Nat
  | .file s => s
  | .dir cs => totalSizeList cs

/-- Reference total size of a forest of subtrees. -/
def totalSizeList : List FsTree → Nat
  | [] => 0
  | t :: ts => totalSize t + totalSizeList ts

end

mutual

/-- Structural weight of a tree, used as termination measure for the
iterative traversal. -/
def treeWeight : FsTree → Nat
  | .file _ => 1
  | .dir cs => 1 + forestWeight cs

/-- Structural weight of a forest. -/
def forestWeight : List FsTree → Nat
  | [] => 0
  | t :: ts => treeWeight t + forestWeight ts

end

/-- One iteration of the inner `for entry in fs::read_dir(&path)` loop of
`compute_dir_size`: files add their length with `saturating_add`, and
subdirectories are pushed onto the explicit work stack (a stack element
is the children list of the pushed directory). -/
def scanChildren : List FsTree → List (List FsTree) → Nat → List (List FsTree) × Nat
  | [], stack, total => (stack, total)
  | .file s :: rest, stack, total => scanChildren rest stack (satAdd total s)
  | .dir ds :: rest, stack, total => scanChildren rest (ds :: stack) total

/-- Termination measure for the outer `while let Some(path) = stack.pop()`
loop: total weight of everything still on the stack. -/
def stackWeight : List (List FsTree) → Nat
  | [] => 0
  | cs :: rest => 1 + forestWeight cs + stackWeight rest

/-- The outer loop of `compute_dir_size`: pop a directory off the stack,
scan its children, repeat until the stack is empty. -/
def dirSizeLoop (stack : List (List FsTree)) (total : Nat) : Nat :=
  match stack with
  | [] => total
  | cs :: rest => dirSizeLoop (scanChildren cs rest total).1 (scanChildren cs rest total).2
termination_by stackWeight stack
decreasing_by
  have key : ∀ (cs : List FsTree) (stack : List (List FsTree)) (total : Nat),
      stackWeight (scanChildren cs stack total).1 ≤ forestWeight cs + stackWeight stack := by
    intro cs
    induction cs with
    | nil => intro stack total; simp [scanChildren]
    | cons t rest ih =>
      intro stack total
      cases t with
      | file s =>
        have h := ih stack (satAdd total s)
        simp only [scanChildren]
        calc stackWeight (scanChildren rest stack (satAdd total s)).1
            ≤ forestWeight rest + stackWeight stack := h
          _ ≤ forestWeight (FsTree.file s :: rest) + stackWeight stack := by
              simp only [forestWeight, treeWeight]; omega
      | dir ds =>
        have h := ih (ds :: stack) total
        simp only [scanChildren]
        calc stackWeight (scanChildren rest (ds :: stack) total).1
            ≤ forestWeight rest + stackWeight (ds :: stack) := h
          _ ≤ forestWeight (FsTree.dir ds :: rest) + stackWeight stack := by
              simp only [forestWeight, treeWeight, stackWeight]; omega
  calc stackWeight (scanChildren cs rest total).1
      ≤ forestWeight cs + stackWeight rest := key cs rest total
    _ < stackWeight (cs :: rest) := by simp only [stackWeight]; omega

/-- Embedding of `compute_dir_size` from src/src-tauri/src/main.rs, run on
a directory whose children are `cs`: `total = 0`, `stack = vec![root]`,
then the iterative traversal. -/
def compute_dir_size (cs : List FsTree) : Nat := dirSizeLoop [cs] 0

/-- Reference total size of everything still on the work stack. -/
def stackTotal : List (List FsTree) → Nat
  | [] => 0
  | cs :: rest => totalSizeList cs + stackTotal rest

mutual

/-- `TreeReorder t u`: `u` is `t` with the children of each directory
listed in a possibly different order (a different `read_dir` traversal
order for the same tree). -/
inductive TreeReorder : FsTree → FsTree → Prop where
  | file (s : Nat) : TreeReorder (.file s) (.file s)
  | dir {cs ds : List FsTree} : ForestReorder cs ds → TreeReorder (.dir cs) (.dir ds)

/-- Reordering of a forest: permutation of the list combined with
recursive reordering of each element. -/
inductive ForestReorder : List FsTree → List FsTree → Prop where
  | nil : ForestReorder [] []
  | cons {t u : FsTree} {cs ds : List FsTree} :
      TreeReorder t u → ForestReorder cs ds → ForestReorder (t :: cs) (u :: ds)
  | swap (t u : FsTree) (cs : List FsTree) : ForestReorder (t :: u :: cs) (u :: t :: cs)
  | trans {cs ds es : List FsTree} :
      ForestReorder cs ds → ForestReorder ds es → ForestReorder cs es

end

/-! ### Disk probe (`available_disk_space`) -/

/-- A mounted volume as reported by `sysinfo::Disks`: its mount point
(path as component list) and its available space in bytes. Paths are
modelled as lists of components; the filesystem root is `[]`, so
`starts_with` becomes `List.isPrefixOf`. -/
structure Disk where
  mount_point : List String
  available_space : Nat
deriving DecidableEq, Repr

/-- All prefixes of a component list, shortest first. -/
def pathPrefixes : List String → List (List String)
  | [] => [[]]
  | a :: as => [] :: (pathPrefixes as).map (a :: ·)

/-- Embedding of Rust `Path::ancestors`: the path itself, then each
parent in turn, ending with the root `[]`. -/
def ancestors (p : List String) : List (List String) :=
  (pathPrefixes p).reverse

/-- Embedding of `available_disk_space` from src/src-tauri/src/main.rs:
`path.ancestors().find_map(|ancestor| disks.iter().find(|disk|
ancestor.starts_with(disk.mount_point())))`, with a `no disk found`
error when the search comes up empty. -/
def available_disk_space (disks : List Disk) (path : List String) : Except String Nat :=
  match (ancestors path).findSome?
      (fun anc => disks.find? (fun d => d.mount_point.isPrefixOf anc)) with
  | some d => Except.ok d.available_space
  | none => Except.error "no disk found"

/-- The disk probe as the specification words it: among the mounted
volumes whose mount point is a prefix of the path, return the one with
the longest mount point (the most specific mounted ancestor); fail when
there is none. Stated only to compare with the implementation. -/
def available_disk_space_spec (disks : List Disk) (path : List String) : Except String Nat :=
  match (disks.filter (fun d => d.mount_point.isPrefixOf path)).foldl
      (fun best d =>
        match best with
        | none => some d
        | some b => if b.mount_point.length < d.mount_point.length then some d else some b)
      none with
  | some d => Except.ok d.available_space
  | none => Except.error "no disk found"

/-! ### Retention sweep (`cleanup_temporary_files`) -/

/-- Fixed retention window of the sweep, in hours. -/
def TEMP_RETENTION_HOURS : Nat := 24

/-- The retention window in seconds. -/
def RETENTION_SECS : Nat := TEMP_RETENTION_HOURS * 3600

/-- Rust `SystemTime::checked_sub` on our Nat timestamps (seconds since
the platform epoch): `none` when the subtraction would leave the
representable range. -/
def checkedSub (a b : Nat) : Option Nat := if b ≤ a then some (a - b) else none

/-- Embedding of `CleanupReport`. -/
structure CleanupReport where
  cleaned_entries : Nat
  reclaimed_bytes : Nat
deriving DecidableEq, Repr

/-- What kind of entry the sweep sees: a regular file with its metadata
length, or a directory with its subtree and a flag telling whether the
`compute_dir_size` call on it succeeds. -/
inductive EntryKind where
  | file (size : Nat)
  | dir (children : List FsTree) (measureOk : Bool)

/-- One direct child of the workspace as the sweep loop sees it, with
the outcome of each fallible call made on it: reading the `DirEntry`
itself, reading its metadata, its `modified()` time (`none` when
unavailable), and whether its removal succeeds. -/
structure Entry where
  readOk : Bool
  metaOk : Bool
  mtime : Option Nat
  kind : EntryKind
  removeOk : Bool

/-- Is the entry a directory (`metadata.is_dir()`). -/
def Entry.isDir (e : Entry) : Bool :=
  match e.kind with
  | .dir _ _ => true
  | .file _ => false

/-- The size the sweep charges for the entry: `compute_dir_size` for a
directory (0 when that measurement fails), `metadata.len()` for a
file. -/
def Entry.measuredSize (e : Entry) : Nat :=
  match e.kind with
  | .file s => s
  | .dir cs ok => if ok then compute_dir_size cs else 0

/-- `metadata.modified().unwrap_or(SystemTime::UNIX_EPOCH)`: a missing
modification time is read as the epoch, i.e. 0. -/
def Entry.effMtime (e : Entry) : Nat := e.mtime.getD 0

/-- The sweep's age test: the code skips an entry iff `modified > cutoff`,
so an entry is eligible for removal iff its effective modification time
is at most the cutoff. -/
def eligibleForRemoval (cutoff : Nat) (e : Entry) : Bool := decide (e.effMtime ≤ cutoff)

/-- An entry actually disappears in this run iff the loop reaches its
removal (entry and metadata readable, age test passed) and the removal
call succeeds. -/
def entryRemoved (cutoff : Nat) (e : Entry) : Bool :=
  e.readOk && e.metaOk && eligibleForRemoval cutoff e && e.removeOk

/-- One iteration of the sweep loop, folding the report: unreadable
entries and metadata are skipped, fresh entries are skipped, a
successful removal counts the entry and adds its measured size with
`saturating_add`, and a failed removal leaves the report unchanged. -/
def sweepStep (cutoff : Nat) (r : CleanupReport) (e : Entry) : CleanupReport :=
  if !e.readOk then r
  else if !e.metaOk then r
  else if !eligibleForRemoval cutoff e then r
  else if e.removeOk then
    { cleaned_entries := r.cleaned_entries + 1,
      reclaimed_bytes := satAdd r.reclaimed_bytes e.measuredSize }
  else r

/-- The report produced by sweeping the listed entries in order. -/
def sweepReport (cutoff : Nat) (es : List Entry) : CleanupReport :=
  es.foldl (sweepStep cutoff) ⟨0, 0⟩

/-- The entries still present after the sweep. -/
def sweepSurvivors (cutoff : Nat) (es : List Entry) : List Entry :=
  es.filter (fun e => !entryRemoved cutoff e)

/-- The workspace as `cleanup_temporary_files` interacts with it:
whether `temporary_workspace_dir` succeeds, whether `read_dir` on the
workspace succeeds, and the listed entries. -/
structure Workspace where
  ensureOk : Bool
  listOk : Bool
  entries : List Entry

/-- Embedding of `cleanup_temporary_files`, also returning the workspace
as it is left on disk: the run fails on workspace resolution, on cutoff
underflow (`checked_sub` returns `None`), or on the top-level `read_dir`;
otherwise it folds the sweep over the entries. -/
def cleanupRun (now : Nat) (ws : Workspace) : Except String CleanupReport × Workspace :=
  if ws.ensureOk = false then (Except.error "workspace unavailable", ws)
  else
    match checkedSub now RETENTION_SECS with
    | none => (Except.error "system time overflow when computing cutoff", ws)
    | some cutoff =>
      if ws.listOk = false then (Except.error "unable to list workspace", ws)
      else (Except.ok (sweepReport cutoff ws.entries),
            { ws with entries := sweepSurvivors cutoff ws.entries })

/-- The value `cleanup_temporary_files` returns to its caller. -/
def cleanup_temporary_files (now : Nat) (ws : Workspace) : Except String CleanupReport :=
  (cleanupRun now ws).1

/-! ### Orchestrator (`housekeeping`) -/

/-- Low-space threshold: 200 MiB. -/
def MIN_DISK_SPACE_BYTES : Nat := 200 * 1024 * 1024

/-- Embedding of `HousekeepingStatus` (the `temp_dir` string is kept as
the path component list). -/
structure HousekeepingStatus where
  available_bytes : Nat
  threshold_bytes : Nat
  low_space : Bool
  temp_dir : List String
  cleanup : CleanupReport
deriving DecidableEq, Repr

/-- Everything one `housekeeping` run reads from its environment: the
clock, the workspace, the mounted volumes, and the workspace path. -/
structure SystemState where
  now : Nat
  ws : Workspace
  disks : List Disk
  tempPath : List String

/-- Embedding of the `housekeeping` command, also returning the
workspace as it is left on disk: ensure the workspace directory, sweep,
probe the disk, then assemble the status with
`low_space = available_bytes <= MIN_DISK_SPACE_BYTES`. -/
def housekeepingRun (s : SystemState) : Except String HousekeepingStatus × Workspace :=
  if s.ws.ensureOk = false then (Except.error "workspace unavailable", s.ws)
  else
    match cleanupRun s.now s.ws with
    | (Except.error e, ws2) => (Except.error e, ws2)
    | (Except.ok cleanup, ws2) =>
      match available_disk_space s.disks s.tempPath with
      | Except.error e => (Except.error e, ws2)
      | Except.ok available_bytes =>
        (Except.ok
          { available_bytes := available_bytes,
            threshold_bytes := MIN_DISK_SPACE_BYTES,
            low_space := decide (available_bytes ≤ MIN_DISK_SPACE_BYTES),
            temp_dir := s.tempPath,
            cleanup := cleanup }, ws2)

/-- The value the `housekeeping` command returns to the host. -/
def housekeeping (s : SystemState) : Except String HousekeepingStatus :=
  (housekeepingRun s).1

/-! ### Lemmas on the size accumulator -/

theorem satAdd_le (a b : Nat) : satAdd a b ≤ U64MAX := by
  simp [satAdd]

theorem scanChildren_key (cs : List FsTree) :
    ∀ stack total,
      min ((scanChildren cs stack total).2 + stackTotal (scanChildren cs stack total).1) U64MAX
        = min (total + (totalSizeList cs + stackTotal stack)) U64MAX := by
  induction cs with
  | nil => intro stack total; simp [scanChildren, totalSizeList]
  | cons t rest ih =>
    intro stack total
    cases t with
    | file s =>
      have h := ih stack (satAdd total s)
      simp only [scanChildren, totalSizeList, totalSize] at h ⊢
      rw [h]
      simp only [satAdd]
      omega
    | dir ds =>
      have h := ih (ds :: stack) total
      simp only [scanChildren, totalSizeList, totalSize, stackTotal] at h ⊢
      omega

theorem scanChildren_snd_le (cs : List FsTree) :
    ∀ stack total, total ≤ U64MAX → (scanChildren cs stack total).2 ≤ U64MAX := by
  induction cs with
  | nil => intro stack total h; simpa [scanChildren] using h
  | cons t rest ih =>
    intro stack total h
    cases t with
    | file s => exact ih stack (satAdd total s) (satAdd_le total s)
    | dir ds => exact ih (ds :: stack) total h

theorem dirSizeLoop_spec (stack : List (List FsTree)) (total : Nat) :
    total ≤ U64MAX → dirSizeLoop stack total = min (total + stackTotal stack) U64MAX := by
  induction stack, total using dirSizeLoop.induct with
  | case1 total =>
    intro h
    simp only [dirSizeLoop, stackTotal]
    omega
  | case2 total cs rest ih =>
    intro h
    rw [dirSizeLoop]
    rw [ih (scanChildren_snd_le cs rest total h)]
    have hk := scanChildren_key cs rest total
    simp only [stackTotal] at hk ⊢
    omega

/-- `compute_dir_size` computes the file-size sum of the forest,
saturated at `U64MAX`. -/
theorem compute_dir_size_eq (cs : List FsTree) :
    compute_dir_size cs = min (totalSizeList cs) U64MAX := by
  have h := dirSizeLoop_spec [cs] 0 (by simp [U64MAX])
  simpa [compute_dir_size, stackTotal] using h

/-- Reordering a forest (any nesting of `read_dir` orders) does not
change its reference total size. Proved with the mutual recursor of the
reorder relations. -/
theorem ForestReorder.totalSizeList_eq {cs ds : List FsTree} (h : ForestReorder cs ds) :
    totalSizeList cs = totalSizeList ds :=
  @ForestReorder.rec
    (fun t u _ => totalSize t = totalSize u)
    (fun cs ds _ => totalSizeList cs = totalSizeList ds)
    (fun _ => rfl)
    (fun _ ih => by simp only [totalSize]; exact ih)
    rfl
    (fun _ _ iht ihf => by simp only [totalSizeList, iht, ihf])
    (fun t u cs => by simp only [totalSizeList]; omega)
    (fun _ _ ih1 ih2 => ih1.trans ih2)
    cs ds h

/-! ### Lemmas on the disk probe -/

theorem pathPrefixes_concat (p : List String) :
    ∃ l, pathPrefixes p = l ++ [p] ∧ ∀ q ∈ l, q <+: p := by
  induction p with
  | nil => exact ⟨[], rfl, by simp⟩
  | cons a as ih =>
    obtain ⟨l, hl, hm⟩ := ih
    refine ⟨[] :: (l.map (a :: ·)), ?_, ?_⟩
    · simp [pathPrefixes, hl]
    · intro q hq
      rcases List.mem_cons.mp hq with h | h
      · subst h; exact List.nil_prefix
      · obtain ⟨q0, hq0, rfl⟩ := List.mem_map.mp h
        exact List.cons_prefix_cons.mpr ⟨rfl, hm q0 hq0⟩

theorem ancestors_structure (p : List String) :
    ∃ rest, ancestors p = p :: rest ∧ ∀ q ∈ rest, q <+: p := by
  obtain ⟨l, hl, hm⟩ := pathPrefixes_concat p
  refine ⟨l.reverse, ?_, ?_⟩
  · simp [ancestors, hl, List.reverse_append]
  · intro q hq
    exact hm q (List.mem_reverse.mp hq)

/-- The ancestor walk in `available_disk_space` is equivalent to a single
first-match search over the enumerated volumes against the path itself:
a mount point that is a prefix of a proper ancestor is already a prefix
of the path. -/
theorem available_disk_space_eq_find (disks : List Disk) (path : List String) :
    available_disk_space disks path =
      match disks.find? (fun d => d.mount_point.isPrefixOf path) with
      | some d => Except.ok d.available_space
      | none => Except.error "no disk found" := by
  obtain ⟨rest, hanc, hm⟩ := ancestors_structure path
  unfold available_disk_space
  rw [hanc, List.findSome?_cons]
  cases hf : disks.find? (fun d => d.mount_point.isPrefixOf path) with
  | some d => simp
  | none =>
    simp only []
    have hnone : List.findSome? (fun anc =>
        disks.find? (fun d => d.mount_point.isPrefixOf anc)) rest = none := by
      rw [List.findSome?_eq_none_iff]
      intro anc hanc2
      rw [List.find?_eq_none]
      intro d _ hd
      have hpre : d.mount_point <+: path :=
        (List.isPrefixOf_iff_prefix.mp hd).trans (hm anc hanc2)
      have : d.mount_point.isPrefixOf path = true := List.isPrefixOf_iff_prefix.mpr hpre
      have hall := List.find?_eq_none.mp hf d (by assumption)
      exact hall this
    rw [hnone]

/-! ### Lemmas on the sweep -/

theorem sweepStep_not_eligible (cutoff : Nat) (r : CleanupReport) (e : Entry)
    (h : eligibleForRemoval cutoff e = false) : sweepStep cutoff r e = r := by
  unfold sweepStep
  by_cases h1 : e.readOk
  · by_cases h2 : e.metaOk
    · simp [h1, h2, h]
    · simp [h1, h2]
  · simp [h1]

theorem foldl_sweepStep_clean (cutoff : Nat) (es : List Entry)
    (h : ∀ e ∈ es, eligibleForRemoval cutoff e = false) :
    ∀ r, es.foldl (sweepStep cutoff) r = r := by
  induction es with
  | nil => intro r; rfl
  | cons e rest ih =>
    intro r
    rw [List.foldl_cons, sweepStep_not_eligible cutoff r e (h e (List.mem_cons_self e rest))]
    exact ih (fun x hx => h x (List.mem_cons_of_mem e hx)) r

theorem sweepSurvivors_clean (cutoff : Nat) (es : List Entry)
    (h : ∀ e ∈ es, eligibleForRemoval cutoff e = false) :
    sweepSurvivors cutoff es = es := by
  unfold sweepSurvivors
  rw [List.filter_eq_self]
  intro e he
  simp [entryRemoved, h e he]

/-! ### The claims -/

/-- C1: for every run of `housekeeping` that returns a status, the
returned `low_space` flag is true iff the probed `available_bytes` is at
most `threshold_bytes`, and `threshold_bytes` is the fixed 200 MiB
constant. -/
theorem housekeeping_low_space_iff (s : SystemState) (st : HousekeepingStatus)
    (h : housekeeping s = Except.ok st) :
    st.threshold_bytes = MIN_DISK_SPACE_BYTES ∧
    (st.low_space = true ↔ st.available_bytes ≤ st.threshold_bytes) := by
  unfold housekeeping housekeepingRun at h
  split at h
  · exact absurd h (by simp)
  · split at h
    · exact absurd h (by simp)
    · split at h
      · exact absurd h (by simp)
      · injection h with h
        subst h
        simp

/-- C1 witness: a concrete run with 5 available bytes on the volume. -/
theorem housekeeping_low_space_iff_witness :
    (⟨5, MIN_DISK_SPACE_BYTES, true, [], ⟨0, 0⟩⟩ : HousekeepingStatus).threshold_bytes
        = MIN_DISK_SPACE_BYTES ∧
    ((⟨5, MIN_DISK_SPACE_BYTES, true, [], ⟨0, 0⟩⟩ : HousekeepingStatus).low_space = true ↔
      (⟨5, MIN_DISK_SPACE_BYTES, true, [], ⟨0, 0⟩⟩ : HousekeepingStatus).available_bytes
        ≤ (⟨5, MIN_DISK_SPACE_BYTES, true, [], ⟨0, 0⟩⟩ : HousekeepingStatus).threshold_bytes) :=
  housekeeping_low_space_iff ⟨86400, ⟨true, true, []⟩, [⟨[], 5⟩], []⟩
    ⟨5, MIN_DISK_SPACE_BYTES, true, [], ⟨0, 0⟩⟩ (by rfl)

/-- C2: for a workspace entry whose entry and metadata reads succeed and
whose modification time `t` is readable, the sweep's age test accepts it
for removal iff `t ≤ now - retention` (boundary inclusive), and any
entry with `t` strictly newer than `now - retention` is still listed
after the sweep. -/
theorem sweep_retention_boundary (now t : Nat) (ws : Workspace) (e : Entry)
    (hnow : RETENTION_SECS ≤ now) (hread : e.readOk = true) (hmeta : e.metaOk = true)
    (hmt : e.mtime = some t) (hmem : e ∈ ws.entries)
    (hens : ws.ensureOk = true) (hlist : ws.listOk = true) :
    (eligibleForRemoval (now - RETENTION_SECS) e = true ↔ t ≤ now - RETENTION_SECS) ∧
    (now - RETENTION_SECS < t → e ∈ (cleanupRun now ws).2.entries) := by
  constructor
  · simp [eligibleForRemoval, Entry.effMtime, hmt]
  · intro hfresh
    have hrem : entryRemoved (now - RETENTION_SECS) e = false := by
      simp [entryRemoved, eligibleForRemoval, Entry.effMtime, hmt]
      omega
    have hcs : checkedSub now RETENTION_SECS = some (now - RETENTION_SECS) := by
      simp [checkedSub, hnow]
    simp only [cleanupRun, hens, hcs, hlist, sweepSurvivors]
    exact List.mem_filter.mpr ⟨hmem, by simp [hrem]⟩

/-- C2 witness: with `now = 86400` (cutoff 0) an entry modified at time 1
is not eligible and survives the sweep. -/
theorem sweep_retention_boundary_witness :
    (eligibleForRemoval (86400 - RETENTION_SECS) ⟨true, true, some 1, .file 7, true⟩ = true
        ↔ (1 : Nat) ≤ 86400 - RETENTION_SECS) ∧
    (86400 - RETENTION_SECS < 1 →
      (⟨true, true, some 1, .file 7, true⟩ : Entry)
        ∈ (cleanupRun 86400 ⟨true, true, [⟨true, true, some 1, .file 7, true⟩]⟩).2.entries) :=
  sweep_retention_boundary 86400 1 ⟨true, true, [⟨true, true, some 1, .file 7, true⟩]⟩
    ⟨true, true, some 1, .file 7, true⟩ (by decide) rfl rfl rfl
    (List.mem_singleton.mpr rfl) rfl rfl

/-- C5: one sweep-loop iteration on an entry that passed the age test:
a successful removal increments `cleaned_entries` by exactly 1 and adds
the entry's measured size (subtree size for a directory, own length for
a file) to `reclaimed_bytes` with saturating addition; a failed removal
leaves the report unchanged. -/
theorem sweep_removal_accounting (cutoff : Nat) (r : CleanupReport) (e : Entry)
    (hread : e.readOk = true) (hmeta : e.metaOk = true)
    (hel : eligibleForRemoval cutoff e = true) :
    (e.removeOk = true →
      sweepStep cutoff r e =
        { cleaned_entries := r.cleaned_entries + 1,
          reclaimed_bytes := satAdd r.reclaimed_bytes e.measuredSize }) ∧
    (e.removeOk = false → sweepStep cutoff r e = r) := by
  constructor
  · intro hrm
    simp [sweepStep, hread, hmeta, hel, hrm]
  · intro hrm
    simp [sweepStep, hread, hmeta, hel, hrm]

/-- C5 witness: an eligible 5-byte file entry on report (2, 7). -/
theorem sweep_removal_accounting_witness :
    sweepStep 10 ⟨2, 7⟩ ⟨true, true, some 3, .file 5, true⟩ =
      { cleaned_entries := 2 + 1,
        reclaimed_bytes :=
          satAdd 7 (Entry.measuredSize ⟨true, true, some 3, .file 5, true⟩) } :=
  (sweep_removal_accounting 10 ⟨2, 7⟩ ⟨true, true, some 3, .file 5, true⟩
    rfl rfl (by decide)).1 rfl

/-- C7: an entry whose metadata is readable but whose modification time
is not (`modified()` fails, modelled as `mtime = none`) is always
eligible for removal, and when the other per-entry calls succeed it is
actually removed in the run (fail-open). -/
theorem mtime_unreadable_fail_open (cutoff : Nat) (e : Entry) (hmt : e.mtime = none) :
    eligibleForRemoval cutoff e = true ∧
    (e.readOk = true → e.metaOk = true → e.removeOk = true →
      entryRemoved cutoff e = true) := by
  have hel : eligibleForRemoval cutoff e = true := by
    simp [eligibleForRemoval, Entry.effMtime, hmt]
  refine ⟨hel, ?_⟩
  intro h1 h2 h3
  simp [entryRemoved, h1, h2, h3, hel]

/-- C7 witness: a concrete entry with unreadable modification time. -/
theorem mtime_unreadable_fail_open_witness :
    eligibleForRemoval 0 ⟨true, true, none, .file 9, true⟩ = true ∧
    ((⟨true, true, none, .file 9, true⟩ : Entry).readOk = true →
      (⟨true, true, none, .file 9, true⟩ : Entry).metaOk = true →
      (⟨true, true, none, .file 9, true⟩ : Entry).removeOk = true →
      entryRemoved 0 ⟨true, true, none, .file 9, true⟩ = true) :=
  mtime_unreadable_fail_open 0 ⟨true, true, none, .file 9, true⟩ rfl

/-- C3 counterexample: with volumes enumerated as root first and then
/home, and the path /home/user, the probe returns the root volume's 100
bytes although the longest matching mount point is /home with 50 bytes,
as `available_disk_space_spec` (worded after the spec) shows. -/
theorem available_disk_space_not_longest :
    available_disk_space [⟨[], 100⟩, ⟨["home"], 50⟩] ["home", "user"] = Except.ok 100 ∧
    available_disk_space_spec [⟨[], 100⟩, ⟨["home"], 50⟩] ["home", "user"] = Except.ok 50 ∧
    (100 : Nat) ≠ 50 :=
  ⟨rfl, rfl, by decide⟩

/-- C3 amended: the disk probe returns the available bytes of the FIRST
volume in enumeration order whose mount point is a prefix of the path
(not the longest matching prefix), and it fails with the
volume-not-found error exactly when no enumerated volume's mount point
is a prefix of the path. -/
theorem available_disk_space_first_match (disks : List Disk) (path : List String) :
    (∀ d, disks.find? (fun d => d.mount_point.isPrefixOf path) = some d →
        available_disk_space disks path = Except.ok d.available_space) ∧
    ((∃ m, available_disk_space disks path = Except.error m) ↔
        ∀ d ∈ disks, d.mount_point.isPrefixOf path = false) := by
  constructor
  · intro d hd
    rw [available_disk_space_eq_find, hd]
  · rw [available_disk_space_eq_find]
    cases hf : disks.find? (fun d => d.mount_point.isPrefixOf path) with
    | some d =>
      constructor
      · rintro ⟨m, hm⟩
        exact absurd hm (by simp)
      · intro hall
        have hp := List.find?_some hf
        have hmem := List.mem_of_find?_eq_some hf
        rw [hall d hmem] at hp
        exact absurd hp (by simp)
    | none =>
      constructor
      · intro _ d hd
        have hne := List.find?_eq_none.mp hf d hd
        exact Bool.eq_false_iff.mpr hne
      · intro _
        exact ⟨_, rfl⟩

/-- C3 witness: a single matching volume is found first and returned. -/
theorem available_disk_space_first_match_witness :
    available_disk_space [⟨["a"], 7⟩] ["a", "b"]
      = Except.ok (Disk.available_space ⟨["a"], 7⟩) :=
  (available_disk_space_first_match [⟨["a"], 7⟩] ["a", "b"]).1 ⟨["a"], 7⟩ (by decide)

/-- C4 counterexample: a run in which the workspace resolves, the
top-level listing succeeds and the disk probe succeeds, yet
`housekeeping` still returns an error, because `now` is too close to the
epoch for the cutoff subtraction. -/
theorem housekeeping_error_beyond_documented :
    housekeeping ⟨0, ⟨true, true, []⟩, [⟨[], 5⟩], []⟩
        = Except.error "system time overflow when computing cutoff" ∧
    (⟨0, ⟨true, true, []⟩, [⟨[], 5⟩], []⟩ : SystemState).ws.ensureOk = true ∧
    (⟨0, ⟨true, true, []⟩, [⟨[], 5⟩], []⟩ : SystemState).ws.listOk = true ∧
    available_disk_space [⟨[], 5⟩] [] = Except.ok 5 :=
  ⟨rfl, rfl, rfl, rfl⟩

/-- C4 amended: `housekeeping` returns an error only when the workspace
directory cannot be resolved/created, when the cutoff timestamp cannot
be computed (`now` minus retention underflows), when listing the
top-level workspace directory fails, or when the disk probe finds no
volume; and whenever those four steps succeed, the run returns a status
regardless of any per-entry failures (unreadable entries or metadata,
failed removals, failed size measurements are all absorbed). -/
theorem housekeeping_error_causes (s : SystemState) :
    (∀ m, housekeeping s = Except.error m →
      s.ws.ensureOk = false ∨ checkedSub s.now RETENTION_SECS = none ∨
        s.ws.listOk = false ∨
        ∃ m2, available_disk_space s.disks s.tempPath = Except.error m2) ∧
    (s.ws.ensureOk = true → RETENTION_SECS ≤ s.now → s.ws.listOk = true →
      ∀ a, available_disk_space s.disks s.tempPath = Except.ok a →
        ∃ st, housekeeping s = Except.ok st) := by
  constructor
  · intro m hm
    by_cases h1 : s.ws.ensureOk = false
    · exact Or.inl h1
    · cases hcs : checkedSub s.now RETENTION_SECS with
      | none => exact Or.inr (Or.inl rfl)
      | some cutoff =>
        by_cases h3 : s.ws.listOk = false
        · exact Or.inr (Or.inr (Or.inl h3))
        · refine Or.inr (Or.inr (Or.inr ?_))
          cases hp : available_disk_space s.disks s.tempPath with
          | error m2 => exact ⟨m2, rfl⟩
          | ok a =>
            exfalso
            unfold housekeeping housekeepingRun cleanupRun at hm
            simp [h1, hcs, h3, hp] at hm
  · intro hens hnow hlist a hp
    have hcs : checkedSub s.now RETENTION_SECS = some (s.now - RETENTION_SECS) := by
      simp [checkedSub, hnow]
    refine ⟨{ available_bytes := a, threshold_bytes := MIN_DISK_SPACE_BYTES,
              low_space := decide (a ≤ MIN_DISK_SPACE_BYTES), temp_dir := s.tempPath,
              cleanup := sweepReport (s.now - RETENTION_SECS) s.ws.entries }, ?_⟩
    unfold housekeeping housekeepingRun cleanupRun
    simp [hens, hcs, hlist, hp]

/-- C4 witness: all four steps succeed on a concrete state (with an
entry whose metadata read fails, which is absorbed), so the run returns
a status. -/
theorem housekeeping_error_causes_witness :
    ∃ st, housekeeping
        ⟨86400, ⟨true, true, [⟨true, false, some 0, .file 3, false⟩]⟩, [⟨[], 5⟩], []⟩
      = Except.ok st :=
  (housekeeping_error_causes
      ⟨86400, ⟨true, true, [⟨true, false, some 0, .file 3, false⟩]⟩, [⟨[], 5⟩], []⟩).2
    rfl (by decide) rfl 5 rfl

/-- C8: a sweep over a workspace with no eligible entries removes
nothing, so running the sweep again right away (same clock, no
filesystem change) returns a report with 0 cleaned entries and 0
reclaimed bytes. -/
theorem sweep_idempotent_on_clean (now : Nat) (ws : Workspace)
    (hens : ws.ensureOk = true) (hnow : RETENTION_SECS ≤ now) (hlist : ws.listOk = true)
    (hclean : ∀ e ∈ ws.entries, eligibleForRemoval (now - RETENTION_SECS) e = false) :
    (cleanupRun now (cleanupRun now ws).2).1 = Except.ok ⟨0, 0⟩ := by
  have hcs : checkedSub now RETENTION_SECS = some (now - RETENTION_SECS) := by
    simp [checkedSub, hnow]
  obtain ⟨en, li, es⟩ := ws
  replace hens : en = true := hens
  replace hlist : li = true := hlist
  replace hclean : ∀ e ∈ es, eligibleForRemoval (now - RETENTION_SECS) e = false := hclean
  subst hens
  subst hlist
  have hws2 : (cleanupRun now ⟨true, true, es⟩).2 = ⟨true, true, es⟩ := by
    unfold cleanupRun
    simp [hcs, sweepSurvivors_clean _ _ hclean]
  rw [hws2]
  unfold cleanupRun
  simp [hcs, sweepReport, foldl_sweepStep_clean _ _ hclean]

/-- C8 witness: a workspace holding one fresh file entry. -/
theorem sweep_idempotent_on_clean_witness :
    (cleanupRun 86400
        (cleanupRun 86400 ⟨true, true, [⟨true, true, some 5, .file 7, true⟩]⟩).2).1
      = Except.ok ⟨0, 0⟩ :=
  sweep_idempotent_on_clean 86400 ⟨true, true, [⟨true, true, some 5, .file 7, true⟩]⟩
    rfl (by decide) rfl (by decide)

/-- C9: when the clock is too close to the platform epoch for the
24-hour retention window to be subtracted (`checked_sub` yields
nothing), the whole `housekeeping` run fails with the cutoff-overflow
error even though the workspace resolves and its listing would
succeed. -/
theorem cutoff_underflow_fails_run (s : SystemState)
    (hens : s.ws.ensureOk = true) (hlist : s.ws.listOk = true)
    (hnow : s.now < RETENTION_SECS) :
    housekeeping s = Except.error "system time overflow when computing cutoff" := by
  have hcs : checkedSub s.now RETENTION_SECS = none := by
    simp only [checkedSub, ite_eq_right_iff]
    omega
  unfold housekeeping housekeepingRun cleanupRun
  simp [hens, hcs]

/-- C9 witness: the run at `now = 0` with a perfectly fine workspace and
volume list. -/
theorem cutoff_underflow_fails_run_witness :
    housekeeping ⟨0, ⟨true, true, []⟩, [⟨[], 500000000⟩], []⟩
      = Except.error "system time overflow when computing cutoff" :=
  cutoff_underflow_fails_run ⟨0, ⟨true, true, []⟩, [⟨[], 500000000⟩], []⟩
    rfl rfl (by decide)

/-- C10: when the disk probe fails after the sweep already ran, the run
returns an error, yet the workspace keeps the post-sweep contents:
every entry the sweep removed stays removed, and the report that counted
those deletions is discarded with the error. -/
theorem housekeeping_not_atomic (s : SystemState) (m : String)
    (hens : s.ws.ensureOk = true) (hnow : RETENTION_SECS ≤ s.now) (hlist : s.ws.listOk = true)
    (hprobe : available_disk_space s.disks s.tempPath = Except.error m) :
    housekeeping s = Except.error m ∧
    (housekeepingRun s).2.entries
        = sweepSurvivors (s.now - RETENTION_SECS) s.ws.entries ∧
    ∀ e ∈ s.ws.entries, entryRemoved (s.now - RETENTION_SECS) e = true →
      e ∉ (housekeepingRun s).2.entries := by
  have hcs : checkedSub s.now RETENTION_SECS = some (s.now - RETENTION_SECS) := by
    simp [checkedSub, hnow]
  have hrun : housekeepingRun s =
      (Except.error m,
       { s.ws with entries := sweepSurvivors (s.now - RETENTION_SECS) s.ws.entries }) := by
    unfold housekeepingRun cleanupRun
    simp [hens, hcs, hlist, hprobe]
  refine ⟨by simp [housekeeping, hrun], by simp [hrun], ?_⟩
  intro e hmem hrm
  rw [hrun]
  simp only [sweepSurvivors]
  intro hin
  have hkeep := (List.mem_filter.mp hin).2
  simp [hrm] at hkeep

/-- C10 witness: one eligible entry is removed, then the probe over an
empty volume list fails; the error surfaces and the entry is gone. -/
theorem housekeeping_not_atomic_witness :
    housekeeping ⟨86400, ⟨true, true, [⟨true, true, some 0, .file 4, true⟩]⟩, [], ["x"]⟩
        = Except.error "no disk found" ∧
    (housekeepingRun
        ⟨86400, ⟨true, true, [⟨true, true, some 0, .file 4, true⟩]⟩, [], ["x"]⟩).2.entries
        = sweepSurvivors (86400 - RETENTION_SECS) [⟨true, true, some 0, .file 4, true⟩] ∧
    ∀ e ∈ [(⟨true, true, some 0, .file 4, true⟩ : Entry)],
      entryRemoved (86400 - RETENTION_SECS) e = true →
        e ∉ (housekeepingRun
          ⟨86400, ⟨true, true, [⟨true, true, some 0, .file 4, true⟩]⟩, [], ["x"]⟩).2.entries :=
  housekeeping_not_atomic
    ⟨86400, ⟨true, true, [⟨true, true, some 0, .file 4, true⟩]⟩, [], ["x"]⟩
    "no disk found" rfl (by decide) rfl rfl

/-- C6 counterexample: on a directory holding two files whose u64 sizes
sum past `U64MAX`, the accumulator saturates and does not return the
exact sum. -/
theorem compute_dir_size_saturates :
    compute_dir_size [FsTree.file U64MAX, FsTree.file 1]
      ≠ totalSizeList [FsTree.file U64MAX, FsTree.file 1] := by
  rw [compute_dir_size_eq]
  simp only [totalSizeList, totalSize, U64MAX]
  omega

/-- C6 amended: for every finite directory tree (all listings and
metadata reads succeeding), `compute_dir_size` returns the sum of the
sizes of all regular files nested under the root saturated at
`U64MAX` — hence exactly the sum whenever that sum is representable in
u64 — and the result is unchanged under any reordering of the
traversal. -/
theorem compute_dir_size_correct (cs ds : List FsTree) (h : ForestReorder cs ds) :
    compute_dir_size cs = min (totalSizeList cs) U64MAX ∧
    compute_dir_size ds = compute_dir_size cs := by
  refine ⟨compute_dir_size_eq cs, ?_⟩
  rw [compute_dir_size_eq, compute_dir_size_eq, h.totalSizeList_eq]

/-- C6 witness: two files traversed in either order. -/
theorem compute_dir_size_correct_witness :
    compute_dir_size [FsTree.file 3, FsTree.file 5]
        = min (totalSizeList [FsTree.file 3, FsTree.file 5]) U64MAX ∧
    compute_dir_size [FsTree.file 5, FsTree.file 3]
        = compute_dir_size [FsTree.file 3, FsTree.file 5] :=
  compute_dir_size_correct [FsTree.file 3, FsTree.file 5] [FsTree.file 5, FsTree.file 3]
    (ForestReorder.swap (FsTree.file 3) (FsTree.file 5) [])

end Photon
